import Mathlib

/-!
# Focus Time Blocker — verification of the time-budget/break state machine

Shallow embedding of the extension's two writers over the shared
`chrome.storage.sync` store:

* `background.js` — `isUrlBlocked`, `checkActiveTabAndManageTime`
  (the periodic Budget Tracker tick);
* `popup.js` — `syncTimeWithStorage` (Local Projector reconciliation),
  `handleAddEntry`, `saveSettings`, `handleBlockNow`.

Timestamps and durations are `Int` milliseconds (JS numbers used as
integral epoch times).  A JS `null`-able storage key is an `Option`;
JS truthiness of a numeric key (`breakEndTime && ...`) is `truthyTime`
(0 and `null` are falsy).  Each `chrome.storage.sync.set` call of a
tracker tick is recorded, in order, in `TickResult.writes`, so that the
intermediate persisted states (e.g. the break-expiry reset written
*before* any accumulation) are observable.
-/

/-- JS `String.prototype.toLowerCase` (ASCII range, as exercised here). -/
def strLower (s : String) : String := ⟨s.data.map Char.toLower⟩

/-- `listStartsWith p s` : the pattern `p` occurs at the very start of `s`. -/
def listStartsWith : List Char → List Char → Bool
  | [], _ => true
  | _ :: _, [] => false
  | a :: p, b :: s => a == b && listStartsWith p s

/-- `listIncludes ned hay` : the needle `ned` occurs contiguously in `hay`. -/
def listIncludes (ned : List Char) : List Char → Bool
  | [] => listStartsWith ned []
  | c :: rest => listStartsWith ned (c :: rest) || listIncludes ned rest

/-- JS `hay.includes(ned)` on strings (contiguous substring test). -/
def strIncludes (hay ned : String) : Bool := listIncludes ned.data hay.data

/-- JS `String.prototype.trim` whitespace predicate (common cases). -/
def isSpaceChar (c : Char) : Bool := c == ' ' || c == '\t' || c == '\n' || c == '\r'

/-- JS `String.prototype.trim`: strip whitespace at both ends. -/
def jsTrim (s : String) : String :=
  ⟨((s.data.dropWhile isSpaceChar).reverse.dropWhile isSpaceChar).reverse⟩

/-- The persisted key-value record in `chrome.storage.sync`
(key layout of §6 of the design; `STORAGE_KEYS` of background.js). -/
structure Store where
  allowedTimeMinutes : Option Int
  blockedEntries : List String
  timeSpent : Int
  breakEndTime : Option Int
  lastCheckTimestamp : Option Int
deriving Repr, DecidableEq

/-- JS truthiness of a nullable numeric storage value:
`null` and `0` are falsy, any other number is truthy. -/
def truthyTime : Option Int → Bool
  | none => false
  | some v => v != 0

/-- background.js / popup.js `BREAK_URL` — the break destination. -/
def BREAK_URL : String := "https://www.google.com/"

/-- background.js `isUrlBlocked(url, blockedEntries)`:
false for an empty url or an empty/absent entry list, otherwise
`blockedEntries.some(entry => lowerUrl.includes(entry.toLowerCase()))`. -/
def isUrlBlocked (url : String) (blockedEntries : List String) : Bool :=
  if url = "" ∨ blockedEntries = [] then false
  else blockedEntries.any (fun entry => strIncludes (strLower url) (strLower entry))

/-- Result of one Budget Tracker tick: the final store, the ordered list of
store snapshots after each `chrome.storage.sync.set`, whether the warning
notification was created, and the navigation command issued (if any). -/
structure TickResult where
  store : Store
  writes : List Store
  notified : Bool
  redirectTo : Option String
deriving Repr, DecidableEq

/-- background.js `checkActiveTabAndManageTime()` at wall-clock `now`.
`activeTab = none` models an empty `chrome.tabs.query` result;
`activeTab = some url?` is the focused tab with `url? = none` when
`activeTab.url` is absent/empty (falsy). -/
def checkActiveTabAndManageTime (now : Int) (activeTab : Option (Option String))
    (s : Store) : TickResult :=
  let allowedTimeMs : Int := s.allowedTimeMinutes.getD 30 * 60 * 1000
  -- 1. break ongoing: only update the checkpoint
  if truthyTime s.breakEndTime = true ∧ now < s.breakEndTime.getD 0 then
    let s' := { s with lastCheckTimestamp := some now }
    { store := s', writes := [s'], notified := false, redirectTo := none }
  else
    -- 2. reset state if the break is over (written before any accumulation)
    let s1 := if truthyTime s.breakEndTime = true ∧ s.breakEndTime.getD 0 ≤ now then
        { s with breakEndTime := none, timeSpent := 0 } else s
    let resetWrites := if truthyTime s.breakEndTime = true ∧ s.breakEndTime.getD 0 ≤ now then
        [s1] else []
    let updatedTimeSpent : Int :=
      if truthyTime s.breakEndTime = true ∧ s.breakEndTime.getD 0 ≤ now then 0 else s.timeSpent
    match activeTab with
    | none =>
      -- 3. no active tab: only update the checkpoint
      let s' := { s1 with lastCheckTimestamp := some now }
      { store := s', writes := resetWrites ++ [s'], notified := false, redirectTo := none }
    | some url? =>
      let blocked : Bool := match url? with
        | none => false
        | some url => isUrlBlocked url s.blockedEntries
      if blocked = true then
        let timeElapsedMs := now - s.lastCheckTimestamp.getD now
        let uts := updatedTimeSpent + timeElapsedMs
        -- 4. notify if less than one minute remains
        let remainingTimeMs := allowedTimeMs - uts
        let notified : Bool := decide (remainingTimeMs ≤ 60000 ∧ remainingTimeMs > 0)
        -- 5. limit reached: persist, start the break, redirect, return
        if allowedTimeMs ≤ uts then
          let s' := { s1 with timeSpent := uts, breakEndTime := some (now + allowedTimeMs),
                              lastCheckTimestamp := some now }
          { store := s', writes := resetWrites ++ [s'], notified := notified,
            redirectTo := some BREAK_URL }
        else
          -- 6. persist accumulated time and checkpoint
          let s' := { s1 with timeSpent := uts, lastCheckTimestamp := some now }
          { store := s', writes := resetWrites ++ [s'], notified := notified,
            redirectTo := none }
      else
        let s' := { s1 with timeSpent := updatedTimeSpent, lastCheckTimestamp := some now }
        { store := s', writes := resetWrites ++ [s'], notified := false, redirectTo := none }

/-- Result of one `syncTimeWithStorage` call of the Local Projector. -/
structure SyncResult where
  localTimeSpent : Int
  store : Store
  wroteStore : Bool
deriving Repr, DecidableEq

/-- popup.js `syncTimeWithStorage()` with local mirror `localTimeSpent`:
on an expired break only zero the local mirror; otherwise write the store
when the local value is strictly ahead, adopt the stored value when it is
strictly ahead. -/
def syncTimeWithStorage (now : Int) (localTimeSpent : Int) (s : Store) : SyncResult :=
  let storageTimeSpent := s.timeSpent
  if truthyTime s.breakEndTime = true ∧ s.breakEndTime.getD 0 < now then
    { localTimeSpent := 0, store := s, wroteStore := false }
  else if storageTimeSpent < localTimeSpent then
    { localTimeSpent := localTimeSpent, store := { s with timeSpent := localTimeSpent },
      wroteStore := true }
  else if localTimeSpent < storageTimeSpent then
    { localTimeSpent := storageTimeSpent, store := s, wroteStore := false }
  else
    { localTimeSpent := localTimeSpent, store := s, wroteStore := false }

/-- One reconciliation write against a break-free store holding `st`:
the stored `timeSpent` that results from `syncTimeWithStorage` run by an
observer whose local mirror is `l`. -/
def reconcileWrite (l st : Int) : Int :=
  (syncTimeWithStorage 0 l
    { allowedTimeMinutes := none, blockedEntries := [], timeSpent := st,
      breakEndTime := none, lastCheckTimestamp := none }).store.timeSpent

/-- The stored `timeSpent` after an arbitrary interleaving of reconciliation
writes: each element of `ls` is the local value one of the observers holds at
its write, applied in sequence to the store. -/
def reconcileRun (st0 : Int) (ls : List Int) : Int :=
  ls.foldl (fun st l => reconcileWrite l st) st0

/-- Result of popup.js `handleAddEntry`: the final store, whether a
`chrome.storage.sync.set` happened, and the in-break flag used for rendering. -/
structure AddEntryResult where
  store : Store
  wroteStore : Bool
  renderedInBreak : Bool
deriving Repr, DecidableEq

/-- popup.js `handleAddEntry()` at wall-clock `now`.
`rawInput` is `newEntryInput.value`; `timeLimitValue` is
`parseInt(timeLimitInput.value, 10)` with `none` for `NaN`.
The break state is read but only used to render the list: the storage
write is unconditional for a non-empty, non-duplicate entry. -/
def handleAddEntry (now : Int) (rawInput : String) (timeLimitValue : Option Int)
    (s : Store) : AddEntryResult :=
  let newEntry := strLower (jsTrim rawInput)
  if newEntry = "" then
    { store := s, wroteStore := false, renderedInBreak := false }
  else
    let isInBreak : Bool := truthyTime s.breakEndTime && decide (now < s.breakEndTime.getD 0)
    if s.blockedEntries.contains newEntry then
      { store := s, wroteStore := false, renderedInBreak := isInBreak }
    else
      { store := { s with blockedEntries := s.blockedEntries ++ [newEntry],
                          allowedTimeMinutes := timeLimitValue },
        wroteStore := true, renderedInBreak := isInBreak }

/-- Result of popup.js `saveSettings`: the final store and, when the save was
accepted, the pair of values written (`allowedTimeMinutes`, `blockedEntries`). -/
structure SaveResult where
  store : Store
  written : Option (Int × List String)
deriving Repr, DecidableEq

/-- popup.js `saveSettings()`.  `timeLimitValue` is
`parseInt(timeLimitInput.value, 10)` with `none` for `NaN`.  An invalid
budget (`NaN` or `< 1`) is rejected synchronously with no write; otherwise
both keys are written (`blockedEntries` with its current stored value). -/
def saveSettings (timeLimitValue : Option Int) (s : Store) : SaveResult :=
  match timeLimitValue with
  | none => { store := s, written := none }
  | some allowedTime =>
    if allowedTime < 1 then { store := s, written := none }
    else
      { store := { s with allowedTimeMinutes := some allowedTime,
                          blockedEntries := s.blockedEntries },
        written := some (allowedTime, s.blockedEntries) }

/-- Result of popup.js `handleBlockNow`. -/
structure BlockNowResult where
  store : Store
  redirectTo : Option String
deriving Repr, DecidableEq

/-- popup.js `handleBlockNow()` at wall-clock `now` with focused tab
`activeTab` (as in `checkActiveTabAndManageTime`): exhaust the budget,
start a break of the same length, update the checkpoint, and redirect the
active tab iff it exists, has a truthy url, and that url matches a rule
(inline `blockedEntries.some(...)` check of popup.js). -/
def handleBlockNow (now : Int) (activeTab : Option (Option String)) (s : Store) :
    BlockNowResult :=
  let allowedTimeMinutes := s.allowedTimeMinutes.getD 30
  let allowedTimeMs := allowedTimeMinutes * 60 * 1000
  let s' := { s with timeSpent := allowedTimeMs, breakEndTime := some (now + allowedTimeMs),
                     lastCheckTimestamp := some now }
  let redirect : Bool := match activeTab with
    | some (some url) =>
      url != "" && s.blockedEntries.any (fun entry =>
        strIncludes (strLower url) (strLower entry))
    | _ => false
  { store := s', redirectTo := if redirect = true then some BREAK_URL else none }

/-- The budget in milliseconds: `(allowedTimeMinutes ?? 30) * 60 * 1000`. -/
def allowedMs (s : Store) : Int := s.allowedTimeMinutes.getD 30 * 60 * 1000

/-- The elapsed time a tick at `now` charges:
`now - (lastCheckTimestamp ?? now)` (absent checkpoint means zero elapsed). -/
def elapsedMs (now : Int) (s : Store) : Int := now - s.lastCheckTimestamp.getD now

/-! ## Substring-matching characterisation -/

/-- `listStartsWith` is the executable form of "is a leading segment". -/
theorem listStartsWith_iff (p s : List Char) :
    listStartsWith p s = true ↔ ∃ t, s = p ++ t := by
  induction p generalizing s with
  | nil => simp [listStartsWith]
  | cons a p ih =>
    cases s with
    | nil => simp [listStartsWith]
    | cons b s =>
      simp only [listStartsWith, Bool.and_eq_true, beq_iff_eq, ih, List.cons_append,
        List.cons.injEq]
      constructor
      · rintro ⟨rfl, t, rfl⟩
        exact ⟨t, rfl, rfl⟩
      · rintro ⟨t, rfl, rfl⟩
        exact ⟨rfl, t, rfl⟩

/-- `listIncludes` is the executable form of "occurs contiguously". -/
theorem listIncludes_iff (ned hay : List Char) :
    listIncludes ned hay = true ↔ ∃ pre post, hay = pre ++ ned ++ post := by
  induction hay with
  | nil =>
    simp only [listIncludes, listStartsWith_iff]
    constructor
    · rintro ⟨t, ht⟩
      exact ⟨[], t, by simpa using ht⟩
    · rintro ⟨pre, post, h⟩
      rcases List.append_eq_nil.mp h.symm with ⟨h1, h2⟩
      rcases List.append_eq_nil.mp h1 with ⟨hpre, hned⟩
      exact ⟨[], by simp [hned]⟩
  | cons c rest ih =>
    simp only [listIncludes, Bool.or_eq_true, listStartsWith_iff, ih]
    constructor
    · rintro (⟨t, ht⟩ | ⟨pre, post, h⟩)
      · exact ⟨[], t, by simpa using ht⟩
      · exact ⟨c :: pre, post, by simp [h]⟩
    · rintro ⟨pre, post, h⟩
      cases pre with
      | nil => exact Or.inl ⟨post, by simpa using h⟩
      | cons d pre =>
        simp only [List.cons_append, List.cons.injEq] at h
        exact Or.inr ⟨pre, post, h.2⟩

/-- `strIncludes` is JS `includes`: a contiguous substring occurrence. -/
theorem strIncludes_iff (hay ned : String) :
    strIncludes hay ned = true ↔ ∃ pre post, hay.data = pre ++ ned.data ++ post :=
  listIncludes_iff ned.data hay.data

/-- Characterisation of background.js `isUrlBlocked`: a nonempty url is
blocked iff some entry's lowercased text occurs in the lowercased url;
an empty url or empty entry list is never blocked. -/
theorem isUrlBlocked_iff (url : String) (entries : List String) :
    isUrlBlocked url entries = true ↔
      url ≠ "" ∧ ∃ e ∈ entries, ∃ pre post,
        (strLower url).data = pre ++ (strLower e).data ++ post := by
  by_cases hu : url = ""
  · simp [isUrlBlocked, hu]
  by_cases he : entries = []
  · simp [isUrlBlocked, hu, he]
  · simp [isUrlBlocked, hu, he, List.any_eq_true, strIncludes_iff]

/-- popup.js's inline match check (`activeTab.url` truthy and
`blockedEntries.some(...)`) agrees with background.js `isUrlBlocked`. -/
theorem inlineBlocked_eq (url : String) (entries : List String) :
    (url != "" && entries.any (fun entry =>
        strIncludes (strLower url) (strLower entry))) = isUrlBlocked url entries := by
  by_cases h : url = "" <;> by_cases h2 : entries = [] <;>
    simp [isUrlBlocked, h, h2]

/-! ## Tracker tick helper lemmas -/

theorem tick_lastCheck (now : Int) (tab : Option (Option String)) (s : Store) :
    (checkActiveTabAndManageTime now tab s).store.lastCheckTimestamp = some now := by
  unfold checkActiveTabAndManageTime
  split
  · rfl
  · cases tab with
    | none => rfl
    | some url? =>
      dsimp only
      repeat' split
      all_goals rfl

theorem tick_config_preserved (now : Int) (tab : Option (Option String)) (s : Store) :
    (checkActiveTabAndManageTime now tab s).store.allowedTimeMinutes = s.allowedTimeMinutes ∧
    (checkActiveTabAndManageTime now tab s).store.blockedEntries = s.blockedEntries := by
  unfold checkActiveTabAndManageTime
  split
  · exact ⟨rfl, rfl⟩
  · cases tab with
    | none =>
      dsimp only
      repeat' split
      all_goals exact ⟨rfl, rfl⟩
    | some url? =>
      dsimp only
      repeat' split
      all_goals exact ⟨rfl, rfl⟩

theorem tick_timeSpent_stable (now : Int) (tab : Option (Option String)) (s : Store)
    (hlc : s.lastCheckTimestamp = some now)
    (hb : ¬ (truthyTime s.breakEndTime = true ∧ s.breakEndTime.getD 0 ≤ now)) :
    (checkActiveTabAndManageTime now tab s).store.timeSpent = s.timeSpent := by
  unfold checkActiveTabAndManageTime
  split
  case isTrue h => rfl
  case isFalse h =>
    simp only [if_neg hb]
    cases tab with
    | none => rfl
    | some url? =>
      dsimp only
      split
      · split
        · simp only [hlc, Option.getD_some]
          omega
        · simp only [hlc, Option.getD_some]
          omega
      · rfl

/-- Where a tick can leave `breakEndTime`: untouched with no expired break
observable at `now`, cleared, or a fresh break ending at `now + allowedMs`. -/
theorem tick_breakEnd_cases (now : Int) (tab : Option (Option String)) (s : Store) :
    ((checkActiveTabAndManageTime now tab s).store.breakEndTime = s.breakEndTime ∧
      ¬ (truthyTime s.breakEndTime = true ∧ s.breakEndTime.getD 0 ≤ now)) ∨
    (checkActiveTabAndManageTime now tab s).store.breakEndTime = none ∨
    (checkActiveTabAndManageTime now tab s).store.breakEndTime = some (now + allowedMs s) := by
  unfold checkActiveTabAndManageTime
  split
  case isTrue h => exact Or.inl ⟨rfl, fun hc => absurd hc.2 (not_le.mpr h.2)⟩
  case isFalse h =>
    cases tab with
    | none =>
      dsimp only
      split
      case isTrue hr => exact Or.inr (Or.inl rfl)
      case isFalse hr => exact Or.inl ⟨rfl, fun hc => hr hc⟩
    | some url? =>
      dsimp only
      split
      case isTrue hbl =>
        split
        case isTrue hr =>
          split
          case isTrue hlim => exact Or.inr (Or.inr (by simp [allowedMs]))
          case isFalse hlim => exact Or.inr (Or.inl rfl)
        case isFalse hr =>
          split
          case isTrue hlim => exact Or.inr (Or.inr (by simp [allowedMs]))
          case isFalse hlim => exact Or.inl ⟨rfl, fun hc => hr hc⟩
      case isFalse hbl =>
        split
        case isTrue hr => exact Or.inr (Or.inl rfl)
        case isFalse hr => exact Or.inl ⟨rfl, fun hc => hr hc⟩

/-- After a tick with a sane budget, the stored break (if any) is not yet
expired at the tick's own wall-clock time. -/
theorem tick_break_not_expired (now : Int) (tab : Option (Option String)) (s : Store)
    (hA : 1 ≤ s.allowedTimeMinutes.getD 30) :
    ¬ (truthyTime (checkActiveTabAndManageTime now tab s).store.breakEndTime = true ∧
       (checkActiveTabAndManageTime now tab s).store.breakEndTime.getD 0 ≤ now) := by
  rcases tick_breakEnd_cases now tab s with ⟨heq, hne⟩ | hnone | hnew
  · rw [heq]
    exact hne
  · rw [hnone]
    simp [truthyTime]
  · rw [hnew]
    intro hc
    have := hc.2
    simp only [Option.getD_some] at this
    have hA' : (60000 : Int) ≤ s.allowedTimeMinutes.getD 30 * 60 * 1000 := by omega
    unfold allowedMs at this
    omega

/-! ## Reconciliation helper lemmas -/

theorem reconcileWrite_eq_max (l st : Int) : reconcileWrite l st = max l st := by
  unfold reconcileWrite syncTimeWithStorage
  simp only [truthyTime, Bool.false_eq_true, false_and, if_false, max_def]
  split_ifs <;> dsimp only <;> omega

theorem reconcileRun_cons (st0 l : Int) (t : List Int) :
    reconcileRun st0 (l :: t) = reconcileRun (reconcileWrite l st0) t := rfl

theorem reconcileRun_mem (st0 : Int) (ls : List Int) : reconcileRun st0 ls ∈ st0 :: ls := by
  induction ls generalizing st0 with
  | nil => simp [reconcileRun]
  | cons l t ih =>
    rw [reconcileRun_cons, reconcileWrite_eq_max]
    rcases List.mem_cons.mp (ih (max l st0)) with h1 | h1
    · rcases max_choice l st0 with hm | hm
      · rw [h1, hm]
        exact List.mem_cons_of_mem _ (List.mem_cons_self _ _)
      · rw [h1, hm]
        exact List.mem_cons_self _ _
    · exact List.mem_cons_of_mem _ (List.mem_cons_of_mem _ h1)

theorem reconcileRun_ge (st0 : Int) (ls : List Int) :
    ∀ x ∈ st0 :: ls, x ≤ reconcileRun st0 ls := by
  induction ls generalizing st0 with
  | nil =>
    intro x hx
    simp only [List.mem_cons, List.not_mem_nil, or_false] at hx
    simp [reconcileRun, hx]
  | cons l t ih =>
    intro x hx
    rw [reconcileRun_cons, reconcileWrite_eq_max]
    have hstep : max l st0 ≤ reconcileRun (max l st0) t :=
      ih (max l st0) _ (List.mem_cons_self _ _)
    rcases List.mem_cons.mp hx with rfl | hx'
    · exact le_trans (le_max_right _ _) hstep
    · rcases List.mem_cons.mp hx' with rfl | hx''
      · exact le_trans (le_max_left _ _) hstep
      · exact ih (max l st0) x (List.mem_cons_of_mem _ hx'')

/-! ## Tracking/enforcement tick shapes -/

/-- A tick with no break present, a matched url, and the budget reached:
the full (unclamped) accumulated value, the fresh break window and the
checkpoint are persisted in a single write, and the tab is redirected. -/
theorem tick_enforce (now : Int) (url : String) (s : Store)
    (hb : s.breakEndTime = none)
    (hbl : isUrlBlocked url s.blockedEntries = true)
    (hge : allowedMs s ≤ s.timeSpent + elapsedMs now s) :
    checkActiveTabAndManageTime now (some (some url)) s =
      { store := { s with timeSpent := s.timeSpent + elapsedMs now s,
                          breakEndTime := some (now + allowedMs s),
                          lastCheckTimestamp := some now },
        writes := [{ s with timeSpent := s.timeSpent + elapsedMs now s,
                            breakEndTime := some (now + allowedMs s),
                            lastCheckTimestamp := some now }],
        notified := decide (allowedMs s - (s.timeSpent + elapsedMs now s) ≤ 60000 ∧
                      allowedMs s - (s.timeSpent + elapsedMs now s) > 0),
        redirectTo := some BREAK_URL } := by
  unfold checkActiveTabAndManageTime
  split
  case isTrue h =>
    rw [hb] at h
    exact absurd h.1 (by simp [truthyTime])
  case isFalse h =>
    dsimp only
    split
    case isTrue hbl2 =>
      split
      case isTrue hr =>
        rw [hb] at hr
        simp [truthyTime] at hr
      case isFalse hr =>
        split
        case isTrue hlim => rfl
        case isFalse hlim =>
          exfalso
          apply hlim
          unfold allowedMs elapsedMs at hge
          exact hge
    case isFalse hbl2 => exact absurd hbl hbl2

/-- A tick with no break present, a matched url, and the budget not yet
reached: the accumulated value and checkpoint are persisted in a single
write, no break is created, no redirect happens. -/
theorem tick_track (now : Int) (url : String) (s : Store)
    (hb : s.breakEndTime = none)
    (hbl : isUrlBlocked url s.blockedEntries = true)
    (hlt : s.timeSpent + elapsedMs now s < allowedMs s) :
    checkActiveTabAndManageTime now (some (some url)) s =
      { store := { s with timeSpent := s.timeSpent + elapsedMs now s,
                          lastCheckTimestamp := some now },
        writes := [{ s with timeSpent := s.timeSpent + elapsedMs now s,
                            lastCheckTimestamp := some now }],
        notified := decide (allowedMs s - (s.timeSpent + elapsedMs now s) ≤ 60000 ∧
                      allowedMs s - (s.timeSpent + elapsedMs now s) > 0),
        redirectTo := none } := by
  unfold checkActiveTabAndManageTime
  split
  case isTrue h =>
    rw [hb] at h
    exact absurd h.1 (by simp [truthyTime])
  case isFalse h =>
    dsimp only
    split
    case isTrue hbl2 =>
      split
      case isTrue hr =>
        rw [hb] at hr
        simp [truthyTime] at hr
      case isFalse hr =>
        split
        case isTrue hlim =>
          exfalso
          unfold allowedMs elapsedMs at hlt
          omega
        case isFalse hlim => rfl
    case isFalse hbl2 => exact absurd hbl hbl2

/-! ## Claims -/

/-- C1: when no break is present, the focused url matches a rule, and the
accumulated usage (stored `timeSpent` plus the elapsed time since the
checkpoint) reaches the budget, the tick persists — in one write —
the accumulated `timeSpent`, a `breakEndTime` of exactly
`now + allowedMinutes*60000` and the checkpoint, commands a navigation to
the break destination, and accumulates nothing further; moreover a tick
during an active break never changes `breakEndTime`, so a break window is
never extended after creation. -/
theorem c1_limit_enforcement :
    (∀ (now : Int) (url : String) (s : Store),
      s.breakEndTime = none →
      isUrlBlocked url s.blockedEntries = true →
      allowedMs s ≤ s.timeSpent + elapsedMs now s →
      (checkActiveTabAndManageTime now (some (some url)) s).store =
        { s with timeSpent := s.timeSpent + elapsedMs now s,
                 breakEndTime := some (now + allowedMs s),
                 lastCheckTimestamp := some now } ∧
      (checkActiveTabAndManageTime now (some (some url)) s).writes =
        [(checkActiveTabAndManageTime now (some (some url)) s).store] ∧
      (checkActiveTabAndManageTime now (some (some url)) s).redirectTo = some BREAK_URL) ∧
    (∀ (now : Int) (tab : Option (Option String)) (s : Store),
      truthyTime s.breakEndTime = true → now < s.breakEndTime.getD 0 →
      (checkActiveTabAndManageTime now tab s).store.breakEndTime = s.breakEndTime) := by
  constructor
  · intro now url s hb hbl hge
    rw [tick_enforce now url s hb hbl hge]
    exact ⟨rfl, rfl, rfl⟩
  · intro now tab s htr hlt
    unfold checkActiveTabAndManageTime
    split
    case isTrue h => rfl
    case isFalse h => exact absurd ⟨htr, hlt⟩ h

/-- C1 witness: a concrete enforcement tick (1-minute budget, 50s stored,
20s elapsed) and a concrete break-preserving tick. -/
theorem c1_witness :
    (checkActiveTabAndManageTime 20000 (some (some "https://example.com/x"))
        ⟨some 1, ["example.com"], 50000, none, some 0⟩).store =
      { allowedTimeMinutes := some 1, blockedEntries := ["example.com"],
        timeSpent := 70000, breakEndTime := some 80000,
        lastCheckTimestamp := some 20000 } ∧
    (checkActiveTabAndManageTime 100
        (some (some "https://example.com/x"))
        ⟨some 1, ["example.com"], 0, some 500, some 0⟩).store.breakEndTime = some 500 := by
  constructor
  · have h := (c1_limit_enforcement.1 20000 "https://example.com/x"
      ⟨some 1, ["example.com"], 50000, none, some 0⟩ rfl (by decide) (by decide)).1
    rw [h]
    rfl
  · exact c1_limit_enforcement.2 100 (some (some "https://example.com/x"))
      ⟨some 1, ["example.com"], 0, some 500, some 0⟩ (by decide) (by decide)

/-- C2: a tick that observes a present-and-expired break clears it and
resets `timeSpent` to exactly 0 in its *first* persisted write, before any
accumulation; with no break present (and a checkpoint not in the future)
`timeSpent` never decreases across a tick; and a tick can zero a positive
`timeSpent` only when it observed a present-and-expired break. -/
theorem c2_break_expiry_reset :
    (∀ (now : Int) (tab : Option (Option String)) (s : Store),
      truthyTime s.breakEndTime = true → s.breakEndTime.getD 0 ≤ now →
      (checkActiveTabAndManageTime now tab s).writes.head? =
        some { s with breakEndTime := none, timeSpent := 0 }) ∧
    (∀ (now : Int) (tab : Option (Option String)) (s : Store),
      s.breakEndTime = none → s.lastCheckTimestamp.getD now ≤ now →
      s.timeSpent ≤ (checkActiveTabAndManageTime now tab s).store.timeSpent) ∧
    (∀ (now : Int) (tab : Option (Option String)) (s : Store),
      s.lastCheckTimestamp.getD now ≤ now →
      (checkActiveTabAndManageTime now tab s).store.timeSpent = 0 →
      0 < s.timeSpent →
      truthyTime s.breakEndTime = true ∧ s.breakEndTime.getD 0 ≤ now) := by
  refine ⟨?_, ?_, ?_⟩
  · intro now tab s htr hle
    have h1 : ¬ (truthyTime s.breakEndTime = true ∧ now < s.breakEndTime.getD 0) :=
      fun hc => absurd hc.2 (not_lt.mpr hle)
    unfold checkActiveTabAndManageTime
    rw [if_neg h1]
    simp only [if_pos (⟨htr, hle⟩ :
      truthyTime s.breakEndTime = true ∧ s.breakEndTime.getD 0 ≤ now)]
    cases tab with
    | none => rfl
    | some url? =>
      dsimp only
      split
      · split
        · rfl
        · rfl
      · rfl
  · intro now tab s hb hel
    have h1 : ¬ (truthyTime s.breakEndTime = true ∧ now < s.breakEndTime.getD 0) := by
      rw [hb]
      simp [truthyTime]
    have h2 : ¬ (truthyTime s.breakEndTime = true ∧ s.breakEndTime.getD 0 ≤ now) := by
      rw [hb]
      simp [truthyTime]
    unfold checkActiveTabAndManageTime
    rw [if_neg h1]
    simp only [if_neg h2]
    cases tab with
    | none => exact le_refl _
    | some url? =>
      dsimp only
      split
      · split
        · dsimp only
          omega
        · dsimp only
          omega
      · exact le_refl _
  · intro now tab s hel hzero hpos
    by_cases htr : truthyTime s.breakEndTime = true
    · by_cases hle : s.breakEndTime.getD 0 ≤ now
      · exact ⟨htr, hle⟩
      · exfalso
        unfold checkActiveTabAndManageTime at hzero
        rw [if_pos (⟨htr, not_le.mp hle⟩ :
          truthyTime s.breakEndTime = true ∧ now < s.breakEndTime.getD 0)] at hzero
        dsimp only at hzero
        omega
    · exfalso
      have h1 : ¬ (truthyTime s.breakEndTime = true ∧ now < s.breakEndTime.getD 0) :=
        fun hc => htr hc.1
      have h2 : ¬ (truthyTime s.breakEndTime = true ∧ s.breakEndTime.getD 0 ≤ now) :=
        fun hc => htr hc.1
      unfold checkActiveTabAndManageTime at hzero
      rw [if_neg h1] at hzero
      simp only [if_neg h2] at hzero
      cases tab with
      | none =>
        dsimp only at hzero
        omega
      | some url? =>
        dsimp only at hzero
        split at hzero
        · split at hzero
          · dsimp only at hzero
            omega
          · dsimp only at hzero
            omega
        · dsimp only at hzero
          omega

/-- C2 witness: a tick at time 100000 with the break expired at 90000 first
writes the cleared-and-zeroed state; a plain tracking tick does not decrease
`timeSpent`; a tick that zeroes a positive counter saw an expired break. -/
theorem c2_witness :
    (checkActiveTabAndManageTime 100000 none
        ⟨some 1, ["example.com"], 60000, some 90000, some 0⟩).writes.head? =
      some ⟨some 1, ["example.com"], 0, none, some 0⟩ ∧
    (1000 : Int) ≤ (checkActiveTabAndManageTime 5000 none
        ⟨some 1, [], 1000, none, some 0⟩).store.timeSpent ∧
    (truthyTime (some (90000 : Int)) = true ∧ (some (90000 : Int)).getD 0 ≤ 100000) := by
  refine ⟨?_, ?_, ?_⟩
  · exact c2_break_expiry_reset.1 100000 none
      ⟨some 1, ["example.com"], 60000, some 90000, some 0⟩ (by decide) (by decide)
  · exact c2_break_expiry_reset.2.1 5000 none ⟨some 1, [], 1000, none, some 0⟩ rfl (by decide)
  · exact c2_break_expiry_reset.2.2 100000 none
      ⟨some 1, ["example.com"], 60000, some 90000, some 0⟩ (by decide) (by decide) (by decide)

/-- C3: with no expired break present, one reconciliation makes both the
local mirror and the stored value equal `max local stored`, writing the
store exactly when the local value is strictly ahead; and after any
interleaving of reconciliation writes the stored value is the maximum of
the initial stored value and all locally-observed values. -/
theorem c3_max_merge_reconciliation :
    (∀ (now l : Int) (s : Store),
      ¬ (truthyTime s.breakEndTime = true ∧ s.breakEndTime.getD 0 < now) →
      (syncTimeWithStorage now l s).localTimeSpent = max l s.timeSpent ∧
      (syncTimeWithStorage now l s).store.timeSpent = max l s.timeSpent ∧
      ((syncTimeWithStorage now l s).wroteStore = true ↔ s.timeSpent < l)) ∧
    (∀ (st0 : Int) (ls : List Int),
      reconcileRun st0 ls ∈ st0 :: ls ∧ ∀ x ∈ st0 :: ls, x ≤ reconcileRun st0 ls) := by
  constructor
  · intro now l s hb
    unfold syncTimeWithStorage
    rw [if_neg hb]
    split
    case isTrue h2 =>
      refine ⟨(max_eq_left h2.le).symm, (max_eq_left h2.le).symm, by simp [h2]⟩
    case isFalse h2 =>
      split
      case isTrue h3 =>
        refine ⟨(max_eq_right h3.le).symm, (max_eq_right h3.le).symm, ?_⟩
        simp only [Bool.false_eq_true, false_iff]
        omega
      case isFalse h3 =>
        have heq : l = s.timeSpent := le_antisymm (not_lt.mp h2) (not_lt.mp h3)
        refine ⟨by simp [heq], by simp [heq], ?_⟩
        simp only [Bool.false_eq_true, false_iff]
        omega
  · intro st0 ls
    exact ⟨reconcileRun_mem st0 ls, reconcileRun_ge st0 ls⟩

/-- C3 witness: a concrete merge (local 10 vs stored 7 with no break) and a
concrete interleaving whose final stored value is the maximum observed. -/
theorem c3_witness :
    (syncTimeWithStorage 5 10 ⟨none, [], 7, none, none⟩).store.timeSpent = 10 ∧
    reconcileRun 3 [9, 4, 6] ∈ ([3, 9, 4, 6] : List Int) ∧
    (9 : Int) ≤ reconcileRun 3 [9, 4, 6] := by
  refine ⟨?_, ?_, ?_⟩
  · have h := (c3_max_merge_reconciliation.1 5 10 ⟨none, [], 7, none, none⟩
      (by simp [truthyTime])).2.1
    rw [h]
    rfl
  · exact (c3_max_merge_reconciliation.2 3 [9, 4, 6]).1
  · exact (c3_max_merge_reconciliation.2 3 [9, 4, 6]).2 9 (by simp)

/-- C4: the checkpoint `lastCheckTimestamp` is set to `now` on every tick,
and (with a sane budget of at least one minute) a second tick at the very
same `now` leaves `timeSpent` unchanged — no double counting. -/
theorem c4_idempotent_ticks :
    (∀ (now : Int) (tab : Option (Option String)) (s : Store),
      (checkActiveTabAndManageTime now tab s).store.lastCheckTimestamp = some now) ∧
    (∀ (now : Int) (tab : Option (Option String)) (s : Store),
      1 ≤ s.allowedTimeMinutes.getD 30 →
      (checkActiveTabAndManageTime now tab
          (checkActiveTabAndManageTime now tab s).store).store.timeSpent =
        (checkActiveTabAndManageTime now tab s).store.timeSpent) := by
  refine ⟨tick_lastCheck, fun now tab s hA => ?_⟩
  exact tick_timeSpent_stable now tab _ (tick_lastCheck now tab s)
    (tick_break_not_expired now tab s hA)

/-- C4 witness: two ticks at the same instant; the second adds nothing. -/
theorem c4_witness :
    (checkActiveTabAndManageTime 60000 (some (some "https://example.com/a"))
        ⟨some 30, ["example.com"], 5000, none, some 0⟩).store.lastCheckTimestamp =
      some 60000 ∧
    (checkActiveTabAndManageTime 60000 (some (some "https://example.com/a"))
        (checkActiveTabAndManageTime 60000 (some (some "https://example.com/a"))
          ⟨some 30, ["example.com"], 5000, none, some 0⟩).store).store.timeSpent =
      (checkActiveTabAndManageTime 60000 (some (some "https://example.com/a"))
        ⟨some 30, ["example.com"], 5000, none, some 0⟩).store.timeSpent := by
  constructor
  · exact c4_idempotent_ticks.1 60000 (some (some "https://example.com/a"))
      ⟨some 30, ["example.com"], 5000, none, some 0⟩
  · exact c4_idempotent_ticks.2 60000 (some (some "https://example.com/a"))
      ⟨some 30, ["example.com"], 5000, none, some 0⟩ (by decide)

/-- C5 counterexample: with a 30-minute budget, remaining time crosses from
61000ms (tick at 5000) to 59000ms (tick at 7000); the tick at 7000 fires a
warning, and the next tick at 9000 (remaining 57000ms, still inside the
same crossing) fires a second warning — not exactly one per crossing. -/
theorem c5_counterexample :
    (checkActiveTabAndManageTime 5000 (some (some "https://www.example.com/feed"))
        ⟨some 30, ["example.com"], 1735000, none, some 1000⟩).notified = false ∧
    (checkActiveTabAndManageTime 5000 (some (some "https://www.example.com/feed"))
        ⟨some 30, ["example.com"], 1735000, none, some 1000⟩).store =
      ⟨some 30, ["example.com"], 1739000, none, some 5000⟩ ∧
    (checkActiveTabAndManageTime 7000 (some (some "https://www.example.com/feed"))
        ⟨some 30, ["example.com"], 1739000, none, some 5000⟩).notified = true ∧
    (checkActiveTabAndManageTime 7000 (some (some "https://www.example.com/feed"))
        ⟨some 30, ["example.com"], 1739000, none, some 5000⟩).store =
      ⟨some 30, ["example.com"], 1741000, none, some 7000⟩ ∧
    (checkActiveTabAndManageTime 9000 (some (some "https://www.example.com/feed"))
        ⟨some 30, ["example.com"], 1741000, none, some 7000⟩).notified = true :=
  ⟨rfl, rfl, rfl, rfl, rfl⟩

/-- C5 (amended): during tracking of a matched page the warning fires at a
tick iff the remaining time after accumulation lies in `(0, 60000]` ms — so
a crossing fires at least one warning, but the warning repeats on every
subsequent in-range tick rather than firing exactly once; and a warning
only ever fires on a tick that tracked a matched page. -/
theorem c5_warning_in_range :
    (∀ (now : Int) (url : String) (s : Store),
      s.breakEndTime = none →
      isUrlBlocked url s.blockedEntries = true →
      ((checkActiveTabAndManageTime now (some (some url)) s).notified = true ↔
        (0 < allowedMs s - (s.timeSpent + elapsedMs now s) ∧
         allowedMs s - (s.timeSpent + elapsedMs now s) ≤ 60000))) ∧
    (∀ (now : Int) (tab : Option (Option String)) (s : Store),
      (checkActiveTabAndManageTime now tab s).notified = true →
      ∃ url, tab = some (some url) ∧ isUrlBlocked url s.blockedEntries = true) := by
  constructor
  · intro now url s hb hbl
    rcases le_or_lt (allowedMs s) (s.timeSpent + elapsedMs now s) with hge | hlt
    · rw [tick_enforce now url s hb hbl hge]
      simp only [decide_eq_true_eq]
      omega
    · rw [tick_track now url s hb hbl hlt]
      simp only [decide_eq_true_eq]
      omega
  · intro now tab s hnot
    unfold checkActiveTabAndManageTime at hnot
    split at hnot
    · simp at hnot
    · cases tab with
      | none => simp at hnot
      | some url? =>
        dsimp only at hnot
        split at hnot
        next hbl =>
          cases url? with
          | none => simp at hbl
          | some url => exact ⟨url, rfl, by simpa using hbl⟩
        next hbl => simp at hnot

/-- C5 witness for the amended theorem: a tracking tick with remaining
59000ms fires the warning; one with remaining 61000ms does not. -/
theorem c5_witness :
    (checkActiveTabAndManageTime 7000 (some (some "https://www.example.com/feed"))
        ⟨some 30, ["example.com"], 1739000, none, some 5000⟩).notified = true ∧
    ¬ (checkActiveTabAndManageTime 5000 (some (some "https://www.example.com/feed"))
        ⟨some 30, ["example.com"], 1735000, none, some 1000⟩).notified = true := by
  constructor
  · exact (c5_warning_in_range.1 7000 "https://www.example.com/feed"
      ⟨some 30, ["example.com"], 1739000, none, some 5000⟩ rfl (by rfl)).mpr
      (by decide)
  · intro h
    have h2 := (c5_warning_in_range.1 5000 "https://www.example.com/feed"
      ⟨some 30, ["example.com"], 1735000, none, some 1000⟩ rfl (by rfl)).mp h
    revert h2
    decide

/-- C6 (code vs spec): `handleAddEntry` writes `blockedEntries` and
`allowedTimeMinutes` to the persisted store even while a break is active
(and observed: the in-break flag it computes is `true`), contradicting the
rule that no configuration key is written while BREAK is observed — the
suppression only disables the separate save action. -/
theorem c6_add_entry_writes_during_break :
    handleAddEntry 1000 "News.com" (some 30)
        ⟨some 30, ["example.com"], 0, some 999999, some 0⟩ =
      { store := ⟨some 30, ["example.com", "news.com"], 0, some 999999, some 0⟩,
        wroteStore := true, renderedInBreak := true } := by
  rfl

/-- C7 counterexample: for the empty url and the rule set containing the
empty pattern, the lowercased url does contain the rule's lowercased text
as a substring, yet the classifier reports not-matched — so "matched iff
substring" fails for every url only because of the empty-url guard. -/
theorem c7_counterexample :
    ¬ (isUrlBlocked "" [""] = true ↔
        ∃ e ∈ ([""] : List String), ∃ pre post,
          (strLower "").data = pre ++ (strLower e).data ++ post) := by
  intro h
  have h2 : ∃ e ∈ ([""] : List String), ∃ pre post,
      (strLower "").data = pre ++ (strLower e).data ++ post :=
    ⟨"", by simp, [], [], rfl⟩
  have h3 := h.mpr h2
  simp [isUrlBlocked] at h3

/-- C7 (amended): a url is matched iff it is nonempty and some rule's
lowercased text occurs in the lowercased url as a contiguous substring;
in particular `"https://sub.example.com/page"` matches `["example.com"]`. -/
theorem c7_substring_match :
    (∀ (url : String) (entries : List String),
      isUrlBlocked url entries = true ↔
        url ≠ "" ∧ ∃ e ∈ entries, ∃ pre post,
          (strLower url).data = pre ++ (strLower e).data ++ post) ∧
    isUrlBlocked "https://sub.example.com/page" ["example.com"] = true :=
  ⟨isUrlBlocked_iff, by rfl⟩

/-- C7 witness: the characterisation applied at a concrete mixed-case pair. -/
theorem c7_witness : isUrlBlocked "https://X.com/a" ["x.COM"] = true :=
  (c7_substring_match.1 "https://X.com/a" ["x.COM"]).mpr
    ⟨by decide, "x.COM", by simp, "https://".data, "/a".data, by rfl⟩

/-- C8: an invalid budget input (`NaN` or an integer below 1) is rejected
with no key written and the store unchanged; a valid budget writes both
`allowedTimeMinutes` (the new value) and `blockedEntries` (current value). -/
theorem c8_config_validation :
    (∀ s : Store, saveSettings none s = { store := s, written := none }) ∧
    (∀ (v : Int) (s : Store), v < 1 →
      saveSettings (some v) s = { store := s, written := none }) ∧
    (∀ (v : Int) (s : Store), 1 ≤ v →
      saveSettings (some v) s =
        { store := { s with allowedTimeMinutes := some v },
          written := some (v, s.blockedEntries) }) := by
  refine ⟨fun s => rfl, fun v s hv => ?_, fun v s hv => ?_⟩
  · unfold saveSettings
    dsimp only
    rw [if_pos hv]
  · unfold saveSettings
    dsimp only
    rw [if_neg (not_lt.mpr hv)]

/-- C8 witness: a rejected save (value 0) and an accepted save (value 30). -/
theorem c8_witness :
    saveSettings (some 0) ⟨some 5, ["a"], 0, none, none⟩ =
      { store := ⟨some 5, ["a"], 0, none, none⟩, written := none } ∧
    saveSettings (some 30) ⟨some 5, ["a"], 0, none, none⟩ =
      { store := ⟨some 30, ["a"], 0, none, none⟩, written := some (30, ["a"]) } := by
  constructor
  · exact c8_config_validation.2.1 0 ⟨some 5, ["a"], 0, none, none⟩ (by decide)
  · exact c8_config_validation.2.2 30 ⟨some 5, ["a"], 0, none, none⟩ (by decide)

/-- C9: `handleBlockNow` always sets `timeSpent` to exactly
`allowedMinutes*60000`, `breakEndTime` to `now + allowedMinutes*60000` and
`lastCheckTimestamp` to `now`, and redirects the active tab to the break
destination iff that tab's url matches a rule. -/
theorem c9_block_now :
    ∀ (now : Int) (tab : Option (Option String)) (s : Store),
      (handleBlockNow now tab s).store =
        { s with timeSpent := allowedMs s,
                 breakEndTime := some (now + allowedMs s),
                 lastCheckTimestamp := some now } ∧
      ((handleBlockNow now tab s).redirectTo = some BREAK_URL ↔
        ∃ url, tab = some (some url) ∧ isUrlBlocked url s.blockedEntries = true) := by
  intro now tab s
  refine ⟨rfl, ?_⟩
  unfold handleBlockNow
  cases tab with
  | none => simp
  | some url? =>
    cases url? with
    | none => simp
    | some url =>
      dsimp only
      rw [inlineBlocked_eq]
      by_cases hbl : isUrlBlocked url s.blockedEntries = true
      · simp [hbl]
      · simp [hbl]

/-- C9 witness: block-now on a matched tab exhausts the budget, opens the
break and redirects. -/
theorem c9_witness :
    (handleBlockNow 1000 (some (some "https://example.com/x"))
        ⟨some 2, ["example.com"], 0, none, none⟩).store =
      ⟨some 2, ["example.com"], 120000, some 121000, some 1000⟩ ∧
    (handleBlockNow 1000 (some (some "https://example.com/x"))
        ⟨some 2, ["example.com"], 0, none, none⟩).redirectTo = some BREAK_URL := by
  constructor
  · have h := (c9_block_now 1000 (some (some "https://example.com/x"))
      ⟨some 2, ["example.com"], 0, none, none⟩).1
    rw [h]
    rfl
  · exact (c9_block_now 1000 (some (some "https://example.com/x"))
      ⟨some 2, ["example.com"], 0, none, none⟩).2.mpr
      ⟨"https://example.com/x", rfl, by rfl⟩

/-- C10: the enforcement tick persists the full accumulated value — stored
`timeSpent` plus elapsed — with no clamp to the budget, so whenever that sum
strictly exceeds the budget the persisted counter strictly exceeds it too. -/
theorem c10_unclamped_overshoot :
    ∀ (now : Int) (url : String) (s : Store),
      s.breakEndTime = none →
      isUrlBlocked url s.blockedEntries = true →
      allowedMs s ≤ s.timeSpent + elapsedMs now s →
      (checkActiveTabAndManageTime now (some (some url)) s).store.timeSpent =
        s.timeSpent + elapsedMs now s ∧
      (allowedMs s < s.timeSpent + elapsedMs now s →
        allowedMs s < (checkActiveTabAndManageTime now (some (some url)) s).store.timeSpent) := by
  intro now url s hb hbl hge
  rw [tick_enforce now url s hb hbl hge]
  exact ⟨rfl, fun h => h⟩

/-- C10 witness: 1-minute budget, 50s stored, 20s elapsed — the persisted
counter is 70000ms, strictly above the 60000ms budget. -/
theorem c10_witness :
    (checkActiveTabAndManageTime 20000 (some (some "https://example.com/"))
        ⟨some 1, ["example.com"], 50000, none, some 0⟩).store.timeSpent = 70000 ∧
    allowedMs ⟨some 1, ["example.com"], 50000, none, some 0⟩ <
      (checkActiveTabAndManageTime 20000 (some (some "https://example.com/"))
        ⟨some 1, ["example.com"], 50000, none, some 0⟩).store.timeSpent := by
  constructor
  · have h := (c10_unclamped_overshoot 20000 "https://example.com/"
      ⟨some 1, ["example.com"], 50000, none, some 0⟩ rfl (by rfl) (by decide)).1
    rw [h]
    rfl
  · exact (c10_unclamped_overshoot 20000 "https://example.com/"
      ⟨some 1, ["example.com"], 50000, none, some 0⟩ rfl (by rfl) (by decide)).2
      (by decide)
